import Mathlib

/-!
Verification development for the MechanicalDesignTools limit-state engine.

This file gives a shallow embedding of the core evaluation routines of the
repository and proves properties about them:

* `engineering_tools/mech_core/analysis/columns.py`
  (`get_k_factor`, `calculate_compressive_strength`),
* `engineering_tools/mech_core/analysis/beams.py`
  (`calculate_bending_capacity`),
* `engineering_tools/mech_core/codes/structural/csa_s16/members.py`
  (`get_k_factor`, `check_flexural_resistance`),
* `engineering_tools/mech_core/codes/structural/csa_s16/connections.py`
  (`check_bolt_shear`),
* `engineering_tools/mech_core/components/connections/shear/fin_plate.py`
  (the governing-mode aggregation of `FinPlateConnection._analyze_csa_s16`),
* `engineering_tools/mech_core/standards/sections.py` and
  `engineering_tools/mech_core/components/aisc_members.py`
  (`SectionProperties.__getattr__`).

Python floats are embedded as real numbers; the numeric engine functions take
the plain magnitudes the Python code extracts at the top of each routine
(`.to(ureg.MPa).magnitude` and so on: stresses in MPa, section lengths in mm,
unbraced/member lengths in m or mm as in the source, areas in mm^2, moduli in
mm^3).  Python strings are embedded as `String` / `List Char`, with the ASCII
behaviour of `str.lower`, `str.strip`, `str.replace` and substring tests
modelled explicitly so that they are executable.  Python exceptions are
embedded with `Except String`.
-/

/-! ## Python string primitives (ASCII model) -/

/-- ASCII model of `str.lower` on a single character. -/
def lowerChar (c : Char) : Char :=
  if 'A' ≤ c ∧ c ≤ 'Z' then Char.ofNat (c.toNat + 32) else c

/-- ASCII model of `str.lower`. -/
def pyLower (l : List Char) : List Char := l.map lowerChar

/-- Whitespace characters removed by `str.strip`. -/
def isPySpace (c : Char) : Bool := c = ' ' ∨ c = '\t' ∨ c = '\n' ∨ c = '\r'

/-- Model of `str.strip`: drop leading and trailing whitespace. -/
def pyStrip (l : List Char) : List Char :=
  ((l.dropWhile isPySpace).reverse.dropWhile isPySpace).reverse

/-- Model of Python string `<` (lexicographic by code point). -/
def listLt : List Char → List Char → Bool
  | [], [] => false
  | [], _ :: _ => true
  | _ :: _, [] => false
  | a :: as, b :: bs => if a < b then true else if b < a then false else listLt as bs

/-- Model of `s.replace("ASTM", "")`: remove every occurrence of `ASTM`,
left to right, non-overlapping. -/
def removeASTM : List Char → List Char
  | 'A' :: 'S' :: 'T' :: 'M' :: rest => removeASTM rest
  | c :: rest => c :: removeASTM rest
  | [] => []

/-! ## Effective length factor

Embeds `get_k_factor` from `analysis/columns.py`; the copy in
`codes/structural/csa_s16/members.py` is textually identical.  The Python
normalises each boundary condition with `b.lower().strip()`, sorts the pair,
joins it with `"-"` and looks the key up in a dict, defaulting to `K = 1.0`
with a printed warning for unknown keys.  The printed warning is embedded as
the `warned` flag. -/

/-- Normalisation `b.lower().strip()` applied to each boundary condition. -/
def pyNormalize (l : List Char) : List Char := pyStrip (pyLower l)

/-- Result of `get_k_factor`: the factor and whether the unknown-boundary
warning was emitted. -/
structure KResult where
  k : ℚ
  warned : Bool
deriving DecidableEq

/-- The dict of theoretical K values keyed by the sorted, dash-joined pair. -/
def kFactorLookup (key : List Char) : Option ℚ :=
  if key = "fixed-fixed".data then some 0.65
  else if key = "fixed-pinned".data then some 0.80
  else if key = "fixed-rolled".data then some 1.20
  else if key = "pinned-pinned".data then some 1.00
  else if key = "fixed-free".data then some 2.10
  else if key = "pinned-rolled".data then some 2.00
  else none

/-- Embedding of `get_k_factor([b1, b2])`. -/
def get_k_factor (b1 b2 : String) : KResult :=
  let n1 := pyNormalize b1.data
  let n2 := pyNormalize b2.data
  let c := if listLt n2 n1 then (n2, n1) else (n1, n2)
  match kFactorLookup (c.1 ++ '-' :: c.2) with
  | some v => ⟨v, false⟩
  | none => ⟨1, true⟩

/-! ## Column capacity engine

Embeds `calculate_compressive_strength` from `analysis/columns.py` (the CSA
copy `check_compressive_resistance` computes the same quantities).  Inputs are
the magnitudes the Python extracts: `L` in mm, `E`, `Fy` in MPa, `Ag` in mm^2,
`rx`, `ry` in mm. -/

structure ColumnInput where
  L : ℝ
  rx : ℝ
  ry : ℝ
  E : ℝ
  Fy : ℝ
  Ag : ℝ

/-- The resolved K factor as a real number. -/
noncomputable def colK (b1 b2 : String) : ℝ := ((get_k_factor b1 b2).k : ℝ)

/-- Governing slenderness `KL/r = max(KL/rx, KL/ry)`. -/
noncomputable def colKLr (inp : ColumnInput) (b1 b2 : String) : ℝ :=
  max (colK b1 b2 * inp.L / inp.rx) (colK b1 b2 * inp.L / inp.ry)

/-- Euler elastic buckling stress `Fe = pi^2 E / (KL/r)^2`. -/
noncomputable def colFe (inp : ColumnInput) (b1 b2 : String) : ℝ :=
  Real.pi ^ 2 * inp.E / (colKLr inp b1 b2) ^ 2

/-- Regime boundary `4.71 sqrt(E/Fy)`. -/
noncomputable def colLimit (inp : ColumnInput) : ℝ :=
  4.71 * Real.sqrt (inp.E / inp.Fy)

/-- Critical stress: inelastic `0.658^(Fy/Fe) Fy` when `KL/r ≤` the limit,
elastic `0.877 Fe` otherwise. -/
noncomputable def colFcr (inp : ColumnInput) (b1 b2 : String) : ℝ :=
  if colKLr inp b1 b2 ≤ colLimit inp then
    (0.658 : ℝ) ^ (inp.Fy / colFe inp b1 b2) * inp.Fy
  else
    0.877 * colFe inp b1 b2

structure ColumnResult where
  kFactor : ℝ
  governingAxis : String
  slenderness : ℝ
  slenderWarning : Bool
  Fe : ℝ
  limitSlenderness : ℝ
  failureMode : String
  Fcr : ℝ
  Pn : ℝ
  Pu : ℝ

/-- Embedding of `calculate_compressive_strength`.  `Pn` is in kN as in the
source (`Fcr * Ag * 1e-3`), `Pu = 0.9 Pn`. -/
noncomputable def calculate_compressive_strength
    (inp : ColumnInput) (b1 b2 : String) : ColumnResult :=
  { kFactor := colK b1 b2
    governingAxis :=
      if colK b1 b2 * inp.L / inp.rx > colK b1 b2 * inp.L / inp.ry
      then "X-X" else "Y-Y"
    slenderness := colKLr inp b1 b2
    slenderWarning := if colKLr inp b1 b2 > 200 then true else false
    Fe := colFe inp b1 b2
    limitSlenderness := colLimit inp
    failureMode :=
      if colKLr inp b1 b2 ≤ colLimit inp
      then "Inelastic Buckling" else "Elastic Buckling"
    Fcr := colFcr inp b1 b2
    Pn := colFcr inp b1 b2 * inp.Ag * 1e-3
    Pu := 0.9 * (colFcr inp b1 b2 * inp.Ag * 1e-3) }

/-! ## Beam capacity engine

Embeds the strong-axis flexure body shared verbatim by
`analysis/beams.py::calculate_bending_capacity` and
`codes/structural/csa_s16/members.py::check_flexural_resistance`.
Inputs are the extracted magnitudes: `Fy`, `E` in MPa, `Lb` in m, `Sx`, `Zx`
in mm^3, `ry`, `rts`, `ho` in mm, `J` in mm^4; moments come out in kNm. -/

/-- Plastic moment `Mp = Fy Zx * 1e-6` (kNm). -/
noncomputable def plasticMoment (Fy Zx : ℝ) : ℝ := Fy * Zx * 1e-6

/-- Compact limit `Lp = 1.76 ry sqrt(E/Fy) / 1000` (m). -/
noncomputable def flexLp (Fy E ry : ℝ) : ℝ :=
  1.76 * ry * Real.sqrt (E / Fy) / 1000

/-- Geometric term `J c / (Sx ho)` with `c = 1.0`. -/
noncomputable def flexGeom (Sx J ho : ℝ) : ℝ := J * 1 / (Sx * ho)

/-- Elastic limit `Lr` (m), AISC Eq. F2-6 as written in the source. -/
noncomputable def flexLr (Fy E Sx rts J ho : ℝ) : ℝ :=
  1.95 * rts * (1 / (0.7 * Fy / E)) *
    Real.sqrt (flexGeom Sx J ho +
      Real.sqrt (flexGeom Sx J ho ^ 2 + 6.76 * (0.7 * Fy / E) ^ 2)) / 1000

/-- Result record for a flexure evaluation.  The weak-axis dict in the source
has no `Lp`/`Lr` keys, hence the `Option`. -/
structure FlexResult where
  Mn : ℝ
  Mu : ℝ
  Lp : Option ℝ
  Lr : Option ℝ
  ltbZone : String

/-- The strong-axis three-zone classification and nominal moment, exactly as
in the source (note the inclusive `≤` on both zone boundaries). -/
noncomputable def strongAxisFlex (Fy E Lb cb Sx Zx ry rts J ho : ℝ) : FlexResult :=
  if Lb ≤ flexLp Fy E ry then
    ⟨plasticMoment Fy Zx, 0.9 * plasticMoment Fy Zx,
      some (flexLp Fy E ry), some (flexLr Fy E Sx rts J ho), "Compact Zone (Zone 1)"⟩
  else if Lb > flexLp Fy E ry ∧ Lb ≤ flexLr Fy E Sx rts J ho then
    ⟨min (cb * (plasticMoment Fy Zx -
        (plasticMoment Fy Zx - 0.7 * Fy * Sx * 1e-6) *
          ((Lb - flexLp Fy E ry) / (flexLr Fy E Sx rts J ho - flexLp Fy E ry))))
      (plasticMoment Fy Zx),
     0.9 * min (cb * (plasticMoment Fy Zx -
        (plasticMoment Fy Zx - 0.7 * Fy * Sx * 1e-6) *
          ((Lb - flexLp Fy E ry) / (flexLr Fy E Sx rts J ho - flexLp Fy E ry))))
      (plasticMoment Fy Zx),
      some (flexLp Fy E ry), some (flexLr Fy E Sx rts J ho), "Inelastic LTB (Zone 2)"⟩
  else
    ⟨min (cb * Real.pi ^ 2 * E / (Lb * 1000 / rts) ^ 2 *
        Real.sqrt (1 + 0.078 * flexGeom Sx J ho * (Lb * 1000 / rts) ^ 2) * Sx * 1e-6)
      (plasticMoment Fy Zx),
     0.9 * min (cb * Real.pi ^ 2 * E / (Lb * 1000 / rts) ^ 2 *
        Real.sqrt (1 + 0.078 * flexGeom Sx J ho * (Lb * 1000 / rts) ^ 2) * Sx * 1e-6)
      (plasticMoment Fy Zx),
      some (flexLp Fy E ry), some (flexLr Fy E Sx rts J ho), "Elastic LTB (Zone 3)"⟩

/-- Section property magnitudes as consumed by the flexure routines. -/
structure BeamSection where
  typ : String
  Sx : ℝ
  Zx : ℝ
  Zy : ℝ
  Sy : ℝ
  ry : ℝ
  rts : ℝ
  J : ℝ
  ho : ℝ

/-- Shape types accepted by both flexure routines. -/
def supportedShapeTypes : List String := ["W", "M", "S", "HP", "C", "MC"]

/-- Embedding of `analysis/beams.py::calculate_bending_capacity`.  The Python
signature takes `axis` (default `"strong"`) but the body never consults it:
every call takes the strong-axis path. -/
noncomputable def calculate_bending_capacity
    (sec : BeamSection) (Fy E Lb : ℝ) (axis : String) (cb : ℝ) :
    Except String FlexResult :=
  if sec.typ ∈ supportedShapeTypes then
    Except.ok (strongAxisFlex Fy E Lb cb sec.Sx sec.Zx sec.ry sec.rts sec.J sec.ho)
  else
    Except.error "NotImplementedError"

/-- Embedding of
`codes/structural/csa_s16/members.py::check_flexural_resistance`, which does
branch on `axis`: `axis.lower() in ["weak", "y"]` takes the weak-axis path
`Mn = min(Fy Zy, 1.6 Fy Sy)` with no LTB classification. -/
noncomputable def check_flexural_resistance
    (sec : BeamSection) (Fy E Lb : ℝ) (axis : String) (cb : ℝ) :
    Except String FlexResult :=
  if sec.typ ∈ supportedShapeTypes then
    if pyLower axis.data = "weak".data ∨ pyLower axis.data = "y".data then
      Except.ok ⟨min (Fy * sec.Zy * 1e-6) (1.6 * Fy * sec.Sy * 1e-6),
        0.9 * min (Fy * sec.Zy * 1e-6) (1.6 * Fy * sec.Sy * 1e-6),
        none, none, "Weak Axis"⟩
    else
      Except.ok (strongAxisFlex Fy E Lb cb sec.Sx sec.Zx sec.ry sec.rts sec.J sec.ho)
  else
    Except.error "NotImplementedError"

/-! ## Section property resolution

Embeds `SectionProperties.__getattr__` from `standards/sections.py`
(textually identical in `components/aisc_members.py`).  A raw record maps
property names to numeric literals or `null`; `__getattr__` raises
`AttributeError` when the name is absent, returns `None` when the stored
value is `null`, and otherwise scales the value by its group. -/

/-- Outcome of one reflective property access. -/
inductive AttrResult
  | missing
  | null
  | quant (mag : ℚ) (unit : String)
  | raw (mag : ℚ)
deriving DecidableEq

/-- Raw stored record: property name to optional numeric literal. -/
structure SectionRecord where
  typ : String
  data : List (String × Option ℚ)

/-- Dict lookup `name in self._data` / `self._data[name]`. -/
def lookupProp : List (String × Option ℚ) → String → Option (Option ℚ)
  | [], _ => none
  | (k, v) :: rest, n => if k = n then some v else lookupProp rest n

/-- Group 1: moments of inertia, scaled by 1e6. -/
def inertiaNames : List String := ["Ix", "Iy", "Iz", "Iw", "Sw1", "Sw2", "Sw3"]

/-- Group 3: section moduli and statical moments, scaled by 1e3. -/
def modulusNames : List String :=
  ["Zx", "Sx", "Zy", "Sy", "Sz", "Qf", "Qw", "C",
   "SwA", "SwB", "SwC", "SzA", "SzB", "SzC"]

/-- Group 5: areas, unscaled. -/
def areaNames : List String := ["A", "Wno"]

/-- Group 6: lengths, unscaled. -/
def lengthNames : List String :=
  ["d", "bf", "tf", "tw", "h", "OD", "ID", "Ht", "B", "b", "t",
   "kdes", "kdet", "k1", "x", "y", "eo", "xp", "yp",
   "rx", "ry", "rz", "ro", "rts", "ho",
   "T", "WGi", "WGo",
   "ddet", "bfdet", "twdet", "twdet_2", "tfdet", "tnom", "tdes",
   "zA", "zB", "zC", "wA", "wB", "wC",
   "PA", "PA2", "PB", "PC", "PD"]

/-- Embedding of `SectionProperties.__getattr__`. -/
def sectionGetattr (rec : SectionRecord) (name : String) : AttrResult :=
  match lookupProp rec.data name with
  | none => .missing
  | some none => .null
  | some (some v) =>
    if name ∈ inertiaNames then .quant (v * 1000000) "mm^4"
    else if name = "J" then .quant (v * 1000) "mm^4"
    else if name ∈ modulusNames then .quant (v * 1000) "mm^3"
    else if name = "Cw" then .quant (v * 1000000000) "mm^6"
    else if name ∈ areaNames then .quant v "mm^2"
    else if name ∈ lengthNames then .quant v "mm"
    else if name = "W" then .quant v "kg/m"
    else .raw v

/-- Fetching `section.<name>.to(...).magnitude` as the beam routine does:
an absent name raises `AttributeError` from `__getattr__`; a `null` value
comes back as `None` and then `.to` raises `AttributeError` on `NoneType`;
a dimensionless raw float would likewise have no `.to`. -/
def fetchMag (rec : SectionRecord) (name : String) : Except String ℚ :=
  match sectionGetattr rec name with
  | .quant m _ => .ok m
  | .raw _ => .error "AttributeError"
  | .null => .error "AttributeError"
  | .missing => .error "AttributeError"

/-- Whether an embedded call raised. -/
def isErr {α : Type} : Except String α → Bool
  | .error _ => true
  | .ok _ => false

/-- Record-level embedding of `calculate_bending_capacity`: the six
property magnitudes are fetched from the raw record (in source order
`Sx, Zx, ry, rts, J, ho`) before any formula runs; any missing or `null`
property propagates the `AttributeError`. -/
noncomputable def calculate_bending_capacity_rec
    (rec : SectionRecord) (Fy E Lb : ℝ) (axis : String) (cb : ℝ) :
    Except String FlexResult :=
  if rec.typ ∈ supportedShapeTypes then
    match fetchMag rec "Sx" with
    | .error e => .error e
    | .ok Sx =>
      match fetchMag rec "Zx" with
      | .error e => .error e
      | .ok Zx =>
        match fetchMag rec "ry" with
        | .error e => .error e
        | .ok ry =>
          match fetchMag rec "rts" with
          | .error e => .error e
          | .ok rts =>
            match fetchMag rec "J" with
            | .error e => .error e
            | .ok J =>
              match fetchMag rec "ho" with
              | .error e => .error e
              | .ok ho =>
                Except.ok (strongAxisFlex Fy E Lb cb (Sx : ℝ) (Zx : ℝ) (ry : ℝ)
                  (rts : ℝ) (J : ℝ) (ho : ℝ))
  else
    Except.error "NotImplementedError"

/-! ## Connection checks

Embeds `check_bolt_shear` from `codes/structural/csa_s16/connections.py` and
the governing-mode aggregation from
`components/connections/shear/fin_plate.py::_analyze_csa_s16`. -/

/-- The `_BOLT_STRENGTHS` table, in dict insertion order. -/
def boltStrengths : List (List Char × ℚ) :=
  [("A325".data, 825), ("F3125".data, 825), ("A490".data, 1035),
   ("Grade 8.8".data, 800), ("Grade 10.9".data, 1000)]

/-- `bolt_grade.replace("ASTM", "").strip()`. -/
def cleanGrade (g : String) : List Char := pyStrip (removeASTM g.data)

/-- The lookup loop: first entry with `key in clean or clean in key` wins,
otherwise the initial default `825.0` (the A325 value) survives. -/
def lookupBoltFu : List (List Char × ℚ) → List Char → ℚ
  | [], _ => 825
  | (k, v) :: rest, clean =>
    if k <:+: clean ∨ clean <:+: k then v else lookupBoltFu rest clean

/-- Resolved bolt ultimate strength for a grade string. -/
def resolveBoltFu (grade : String) : ℚ := lookupBoltFu boltStrengths (cleanGrade grade)

structure BoltShearResult where
  FuBolt : ℝ
  VrOne : ℝ
  VrTotal : ℝ
  utilization : ℝ
  status : String

/-- Embedding of `check_bolt_shear` (diameter in mm, shear in kN):
`Ab = pi db^2 / 4`, `Vr = 0.60 * 0.80 * Ab * Fu * m * 1e-3` with one shear
plane, total `n * Vr`, `PASS` iff utilization `≤ 1.0`. -/
noncomputable def check_bolt_shear
    (nBolts : ℕ) (db Vf : ℝ) (grade : String) : BoltShearResult :=
  { FuBolt := ((resolveBoltFu grade : ℚ) : ℝ)
    VrOne := 0.60 * 0.80 * (Real.pi * db ^ 2 / 4) * ((resolveBoltFu grade : ℚ) : ℝ) * 1 * 1e-3
    VrTotal := 0.60 * 0.80 * (Real.pi * db ^ 2 / 4) * ((resolveBoltFu grade : ℚ) : ℝ) * 1 * 1e-3 * nBolts
    utilization := Vf / (0.60 * 0.80 * (Real.pi * db ^ 2 / 4) * ((resolveBoltFu grade : ℚ) : ℝ) * 1 * 1e-3 * nBolts)
    status :=
      if Vf / (0.60 * 0.80 * (Real.pi * db ^ 2 / 4) * ((resolveBoltFu grade : ℚ) : ℝ) * 1 * 1e-3 * nBolts) ≤ 1
      then "PASS" else "FAIL" }

/-- Python `max` step on `(utilization, name)` tuples: replace the running
maximum exactly when the new tuple compares lexicographically greater. -/
noncomputable def pyMaxPair (a b : ℝ × String) : ℝ × String :=
  if a.1 < b.1 ∨ (a.1 = b.1 ∧ a.2 < b.2) then b else a

/-- Aggregated outcome of `_analyze_csa_s16`. -/
structure GoverningResult where
  overall : String
  critUtil : ℝ
  critMode : String

/-- Embedding of the aggregation step of `_analyze_csa_s16`: build the
`(utilization, mode)` tuples for bolt shear, bearing and block shear in
source order, take the Python `max`, and report `PASS` iff the governing
utilization is `≤ 1.0`. -/
noncomputable def aggregate_modes (uBolt uBear uBlock : ℝ) : GoverningResult :=
  { overall :=
      if (pyMaxPair (pyMaxPair (uBolt, "Bolt Shear") (uBear, "Bearing"))
          (uBlock, "Block Shear")).1 ≤ 1
      then "PASS" else "FAIL"
    critUtil :=
      (pyMaxPair (pyMaxPair (uBolt, "Bolt Shear") (uBear, "Bearing"))
        (uBlock, "Block Shear")).1
    critMode :=
      (pyMaxPair (pyMaxPair (uBolt, "Bolt Shear") (uBear, "Bearing"))
        (uBlock, "Block Shear")).2 }

/-! ## Helper lemmas -/

lemma append_dash_inj : ∀ (c1 x c2 y : List Char), '-' ∉ c1 → '-' ∉ x →
    c1 ++ '-' :: c2 = x ++ '-' :: y → c1 = x ∧ c2 = y := by
  intro c1
  induction c1 with
  | nil =>
    intro x c2 y _ hx h
    cases x with
    | nil => simpa using h
    | cons a as =>
      exfalso
      rw [List.nil_append, List.cons_append] at h
      injection h with h1 _
      exact hx (by rw [h1]; exact List.mem_cons_self a as)
  | cons b bs ih =>
    intro x c2 y hc hx h
    cases x with
    | nil =>
      exfalso
      rw [List.nil_append, List.cons_append] at h
      injection h with h1 _
      exact hc (by rw [← h1]; exact List.mem_cons_self b bs)
    | cons a as =>
      rw [List.cons_append, List.cons_append] at h
      injection h with h1 h2
      have htail := ih as c2 y (fun hm => hc (List.mem_cons_of_mem _ hm))
        (fun hm => hx (List.mem_cons_of_mem _ hm)) h2
      exact ⟨by rw [h1, htail.1], htail.2⟩

lemma append_dash_eq (c1 c2 x y : List Char) (hx : '-' ∉ x) (hy : '-' ∉ y)
    (h : c1 ++ '-' :: c2 = x ++ '-' :: y) : c1 = x ∧ c2 = y := by
  have hcount := congrArg (List.count '-') h
  simp only [List.count_append, List.count_cons] at hcount
  have hx0 : List.count '-' x = 0 := List.count_eq_zero.mpr hx
  have hy0 : List.count '-' y = 0 := List.count_eq_zero.mpr hy
  rw [hx0, hy0] at hcount
  have hc1 : '-' ∉ c1 := List.count_eq_zero.mp (by omega)
  exact append_dash_inj c1 x c2 y hc1 hx h

/-! ## C5: section property lookup for absent names -/

/-- C5 counterexample: for a property name absent from the underlying record
(`"J"` on a record that only stores `"A"`), `__getattr__` raises
`AttributeError` (modelled `AttrResult.missing`), it does not return `None`
(modelled `AttrResult.null`).  This refutes the claim that absent names
yield `None` rather than an error. -/
theorem C5_absent_name_counterexample :
    sectionGetattr ⟨"W", [("A", some 100)]⟩ "J" = AttrResult.missing ∧
    AttrResult.missing ≠ AttrResult.null := by
  exact ⟨rfl, by decide⟩

/-- C5 amended: a name absent from the record raises `AttributeError`
(`.missing`); `None` is returned exactly for names present in the record
whose stored value is `null`. -/
theorem C5_getattr_amended (rec : SectionRecord) (name : String) :
    (lookupProp rec.data name = none → sectionGetattr rec name = AttrResult.missing) ∧
    (lookupProp rec.data name = some none → sectionGetattr rec name = AttrResult.null) := by
  constructor <;> intro h <;> simp [sectionGetattr, h]

/-- C5 witness: the amended claim evaluated on concrete records. -/
theorem C5_getattr_amended_witness :
    lookupProp [("A", some (100 : ℚ))] "J" = none ∧
    sectionGetattr ⟨"W", [("A", some 100)]⟩ "J" = AttrResult.missing ∧
    lookupProp [(("J" : String), (none : Option ℚ))] "J" = some none ∧
    sectionGetattr ⟨"W", [("J", none)]⟩ "J" = AttrResult.null :=
  ⟨rfl, (C5_getattr_amended ⟨"W", [("A", some 100)]⟩ "J").1 rfl, rfl,
   (C5_getattr_amended ⟨"W", [("J", none)]⟩ "J").2 rfl⟩

/-! ## C6: effective-length factor resolution -/

/-- The six tabulated unordered pairs with their K values. -/
def kPairs : List ((List Char × List Char) × ℚ) :=
  [(("fixed".data, "fixed".data), 0.65), (("fixed".data, "pinned".data), 0.80),
   (("fixed".data, "rolled".data), 1.20), (("pinned".data, "pinned".data), 1.00),
   (("fixed".data, "free".data), 2.10), (("pinned".data, "rolled".data), 2.00)]

lemma kFactorLookup_of_unmatched (a b : List Char)
    (h : ∀ p ∈ kPairs, ¬((a = p.1.1 ∧ b = p.1.2) ∨ (a = p.1.2 ∧ b = p.1.1)))
    : kFactorLookup (a ++ '-' :: b) = none := by
  have mk : ∀ (x y : List Char) (k : ℚ), '-' ∉ x → '-' ∉ y →
      ((x, y), k) ∈ kPairs → a ++ '-' :: b ≠ x ++ '-' :: y := by
    intro x y k hx hy hmem heq
    have hab := append_dash_eq a b x y hx hy heq
    exact h ((x, y), k) hmem (Or.inl ⟨hab.1, hab.2⟩)
  unfold kFactorLookup
  rw [if_neg, if_neg, if_neg, if_neg, if_neg, if_neg]
  · exact mk "pinned".data "rolled".data 2.00 (by decide) (by decide) (by simp [kPairs])
  · exact mk "fixed".data "free".data 2.10 (by decide) (by decide) (by simp [kPairs])
  · exact mk "pinned".data "pinned".data 1.00 (by decide) (by decide) (by simp [kPairs])
  · exact mk "fixed".data "rolled".data 1.20 (by decide) (by decide) (by simp [kPairs])
  · exact mk "fixed".data "pinned".data 0.80 (by decide) (by decide) (by simp [kPairs])
  · exact mk "fixed".data "fixed".data 0.65 (by decide) (by decide) (by simp [kPairs])

/-- C6: for each of the six tabulated unordered pairs of end conditions,
given in either order (after the `b.lower().strip()` normalisation of the source,
so letter case and surrounding whitespace are immaterial), `get_k_factor`
returns the tabulated K with no warning; for every pair outside the table it
returns the legacy fallback `K = 1.0` with the warning surfaced. -/
theorem C6_k_factor_table (b1 b2 : String) :
    (∀ p ∈ kPairs,
      ((pyNormalize b1.data = p.1.1 ∧ pyNormalize b2.data = p.1.2) ∨
       (pyNormalize b1.data = p.1.2 ∧ pyNormalize b2.data = p.1.1)) →
      get_k_factor b1 b2 = ⟨p.2, false⟩) ∧
    ((∀ p ∈ kPairs,
      ¬((pyNormalize b1.data = p.1.1 ∧ pyNormalize b2.data = p.1.2) ∨
        (pyNormalize b1.data = p.1.2 ∧ pyNormalize b2.data = p.1.1))) →
      get_k_factor b1 b2 = ⟨1, true⟩) := by
  constructor
  · intro p hp h
    fin_cases hp <;> rcases h with ⟨h1, h2⟩ | ⟨h1, h2⟩ <;>
      simp only [get_k_factor] <;> rw [h1, h2] <;> rfl
  · intro h
    simp only [get_k_factor]
    by_cases hlt : listLt (pyNormalize b2.data) (pyNormalize b1.data)
    · rw [if_pos hlt, kFactorLookup_of_unmatched _ _ ?_]
      intro p hp hcon
      exact h p hp (hcon.elim (fun ⟨x, y⟩ => Or.inr ⟨y, x⟩) (fun ⟨x, y⟩ => Or.inl ⟨y, x⟩))
    · rw [if_neg hlt, kFactorLookup_of_unmatched _ _ (fun p hp => h p hp)]

/-- C6 witness: a tabulated pair given with case/whitespace noise and in
mixed order resolves to `K = 0.80`; an unknown pair falls back to `K = 1.0`
with the warning. -/
theorem C6_k_factor_table_witness :
    get_k_factor "  FIXED " "Pinned" = ⟨0.80, false⟩ ∧
    get_k_factor "guided" "fixed" = ⟨1, true⟩ :=
  ⟨(C6_k_factor_table "  FIXED " "Pinned").1 (("fixed".data, "pinned".data), 0.80)
      (by simp [kPairs]) (Or.inl ⟨by decide, by decide⟩),
   (C6_k_factor_table "guided" "fixed").2 (by decide)⟩

/-! ## C10: bolt-grade resolution never fails -/

lemma lookupBoltFu_default (l : List (List Char × ℚ)) (c : List Char)
    (h : ∀ p ∈ l, ¬(p.1 <:+: c) ∧ ¬(c <:+: p.1)) : lookupBoltFu l c = 825 := by
  induction l with
  | nil => rfl
  | cons p rest ih =>
    obtain ⟨k, v⟩ := p
    obtain ⟨h1, h2⟩ := h (k, v) (List.mem_cons_self _ _)
    simp only [lookupBoltFu]
    rw [if_neg (not_or.mpr ⟨h1, h2⟩)]
    exact ih fun q hq => h q (List.mem_cons_of_mem _ hq)

/-- C10: if the cleaned grade string (`replace("ASTM","").strip()`) matches
no entry of `_BOLT_STRENGTHS` in either substring direction, the bolt
ultimate strength silently defaults to 825 MPa and the whole shear check
returns exactly what it returns for grade `"A325"` — a capacity,
utilization and PASS/FAIL status are still produced. -/
theorem C10_unknown_grade_defaults (grade : String) (n : ℕ) (db Vf : ℝ)
    (h : ∀ p ∈ boltStrengths, ¬(p.1 <:+: cleanGrade grade) ∧ ¬(cleanGrade grade <:+: p.1)) :
    (check_bolt_shear n db Vf grade).FuBolt = 825 ∧
    check_bolt_shear n db Vf grade = check_bolt_shear n db Vf "A325" := by
  have hres : resolveBoltFu grade = 825 := lookupBoltFu_default _ _ h
  have hA325 : resolveBoltFu "A325" = 825 := by decide
  constructor
  · show ((resolveBoltFu grade : ℚ) : ℝ) = 825
    rw [hres]; norm_num
  · simp only [check_bolt_shear, hres, hA325]

/-- C10 witness: the unrecognized grade `"XYZ-99"` gets `Fu = 825` and the
same full result as `"A325"`. -/
theorem C10_unknown_grade_defaults_witness :
    (check_bolt_shear 4 20 150 "XYZ-99").FuBolt = 825 ∧
    check_bolt_shear 4 20 150 "XYZ-99" = check_bolt_shear 4 20 150 "A325" :=
  C10_unknown_grade_defaults "XYZ-99" 4 20 150 (by decide)

/-! ## C2: flexure evaluation with missing torsional properties -/

/-- C2 counterexample: a supported (`W`) record that stores `Sx`, `Zx`, `ry`
but has no `rts`, `J`, `ho` entries.  The strong-axis evaluation does not
return a degraded result with a sentinel `Lr`: it raises `AttributeError`
while collecting the design variables. -/
theorem C2_missing_rts_counterexample :
    calculate_bending_capacity_rec
      ⟨"W", [("Sx", some 1000), ("Zx", some 1100), ("ry", some 50)]⟩
      350 200000 2 "strong" 1 = Except.error "AttributeError" := rfl

lemma fetchMag_err (rec : SectionRecord) (name : String)
    (h : lookupProp rec.data name = none ∨ lookupProp rec.data name = some none) :
    fetchMag rec name = Except.error "AttributeError" := by
  rcases h with h | h <;> simp [fetchMag, sectionGetattr, h]

/-- C2 amended: whenever any of `rts`, `ho` or `J` is absent from the record
(or stored as `null`), the strong-axis evaluation raises (`AttributeError`
from the reflective lookup, or `NotImplementedError` for unsupported
shapes); no sentinel `Lr`, no skipped Zone-3 classification, and no
non-fatal note exist in the code. -/
theorem C2_missing_torsional_raises (rec : SectionRecord) (Fy E Lb : ℝ)
    (axis : String) (cb : ℝ)
    (h : (lookupProp rec.data "rts" = none ∨ lookupProp rec.data "rts" = some none) ∨
      (lookupProp rec.data "ho" = none ∨ lookupProp rec.data "ho" = some none) ∨
      (lookupProp rec.data "J" = none ∨ lookupProp rec.data "J" = some none)) :
    isErr (calculate_bending_capacity_rec rec Fy E Lb axis cb) = true := by
  unfold calculate_bending_capacity_rec
  by_cases htyp : rec.typ ∈ supportedShapeTypes
  · rw [if_pos htyp]
    rcases hSx : fetchMag rec "Sx" with e | vSx
    · rfl
    · rcases hZx : fetchMag rec "Zx" with e | vZx
      · rfl
      · rcases hry : fetchMag rec "ry" with e | vry
        · rfl
        · rcases hrts : fetchMag rec "rts" with e | vrts
          · rfl
          · rcases hJ : fetchMag rec "J" with e | vJ
            · rfl
            · rcases hho : fetchMag rec "ho" with e | vho
              · rfl
              · exfalso
                rcases h with hc | hc | hc
                · rw [fetchMag_err rec "rts" hc] at hrts
                  exact Except.noConfusion hrts
                · rw [fetchMag_err rec "ho" hc] at hho
                  exact Except.noConfusion hho
                · rw [fetchMag_err rec "J" hc] at hJ
                  exact Except.noConfusion hJ
  · rw [if_neg htyp]; rfl

/-- C2 witness: the amended claim evaluated on two concrete degraded
records, one lacking `rts` (and `J`, `ho`) entirely, one storing `rts` and
`ho` but lacking `J`. -/
theorem C2_missing_torsional_raises_witness :
    lookupProp [(("Sx" : String), some (1000 : ℚ)), ("Zx", some 1100), ("ry", some 50)]
      "rts" = none ∧
    isErr (calculate_bending_capacity_rec
      ⟨"W", [("Sx", some 1000), ("Zx", some 1100), ("ry", some 50)]⟩
      350 200000 2 "strong" 1) = true ∧
    lookupProp [(("Sx" : String), some (1000 : ℚ)), ("Zx", some 1100), ("ry", some 50),
      ("rts", some 40), ("ho", some 200)] "J" = none ∧
    isErr (calculate_bending_capacity_rec
      ⟨"W", [("Sx", some 1000), ("Zx", some 1100), ("ry", some 50),
        ("rts", some 40), ("ho", some 200)]⟩
      350 200000 2 "strong" 1) = true :=
  ⟨rfl,
   C2_missing_torsional_raises _ 350 200000 2 "strong" 1 (Or.inl (Or.inl rfl)),
   rfl,
   C2_missing_torsional_raises _ 350 200000 2 "strong" 1 (Or.inr (Or.inr (Or.inl rfl)))⟩

/-! ## C4: governing-mode aggregation -/

lemma pyMaxPair_fst (a b : ℝ × String) : (pyMaxPair a b).1 = max a.1 b.1 := by
  unfold pyMaxPair
  split
  · next hc =>
    rcases hc with hlt | ⟨heq, _⟩
    · exact (max_eq_right hlt.le).symm
    · exact (max_eq_right heq.le).symm
  · next hc =>
    push_neg at hc
    exact (max_eq_left hc.1).symm

/-- C4: the fin-plate aggregator reports as governing one of the three
checks, with utilization equal to the maximum of the three check
utilizations; the overall status is `PASS` iff that maximum is at most
`1.0`; and on the utilizations `[0.4, 0.9, 0.6]` it reports the second
check (`Bearing`) as governing with utilization `0.9` and overall `PASS`. -/
theorem C4_governing_mode_aggregation :
    (∀ uBolt uBear uBlock : ℝ,
      (aggregate_modes uBolt uBear uBlock).critUtil = max uBolt (max uBear uBlock) ∧
      ((aggregate_modes uBolt uBear uBlock).overall = "PASS" ↔
        max uBolt (max uBear uBlock) ≤ 1) ∧
      (((aggregate_modes uBolt uBear uBlock).critUtil,
        (aggregate_modes uBolt uBear uBlock).critMode) = (uBolt, "Bolt Shear") ∨
       ((aggregate_modes uBolt uBear uBlock).critUtil,
        (aggregate_modes uBolt uBear uBlock).critMode) = (uBear, "Bearing") ∨
       ((aggregate_modes uBolt uBear uBlock).critUtil,
        (aggregate_modes uBolt uBear uBlock).critMode) = (uBlock, "Block Shear"))) ∧
    aggregate_modes 0.4 0.9 0.6 = ⟨"PASS", 0.9, "Bearing"⟩ := by
  have hfst : ∀ u1 u2 u3 : ℝ,
      (pyMaxPair (pyMaxPair (u1, "Bolt Shear") (u2, "Bearing")) (u3, "Block Shear")).1 =
        max u1 (max u2 u3) := by
    intro u1 u2 u3
    rw [pyMaxPair_fst, pyMaxPair_fst]
    simp [max_assoc, max_comm u3 u2]
  have hsel : ∀ a b : ℝ × String, pyMaxPair a b = a ∨ pyMaxPair a b = b := by
    intro a b
    unfold pyMaxPair
    split
    · exact Or.inr rfl
    · exact Or.inl rfl
  constructor
  · intro u1 u2 u3
    refine ⟨?_, ?_, ?_⟩
    · show (pyMaxPair (pyMaxPair (u1, "Bolt Shear") (u2, "Bearing")) (u3, "Block Shear")).1 = _
      exact hfst u1 u2 u3
    · show (if (pyMaxPair (pyMaxPair (u1, "Bolt Shear") (u2, "Bearing"))
          (u3, "Block Shear")).1 ≤ 1 then "PASS" else "FAIL") = "PASS" ↔ _
      rw [hfst u1 u2 u3]
      split
      · next hle => simpa using hle
      · next hgt => simp [hgt]
    · have hgoal : ((aggregate_modes u1 u2 u3).critUtil,
          (aggregate_modes u1 u2 u3).critMode) =
          pyMaxPair (pyMaxPair (u1, "Bolt Shear") (u2, "Bearing")) (u3, "Block Shear") := rfl
      rw [hgoal]
      rcases hsel (pyMaxPair (u1, "Bolt Shear") (u2, "Bearing")) (u3, "Block Shear") with
        h3 | h3
      · rcases hsel (u1, "Bolt Shear") (u2, "Bearing") with h2 | h2 <;> rw [h3, h2]
        · exact Or.inl rfl
        · exact Or.inr (Or.inl rfl)
      · rw [h3]
        exact Or.inr (Or.inr rfl)
  · have h1 : pyMaxPair ((0.4 : ℝ), "Bolt Shear") (0.9, "Bearing") = (0.9, "Bearing") := by
      unfold pyMaxPair
      rw [if_pos (Or.inl (by norm_num))]
    have h2 : pyMaxPair ((0.9 : ℝ), "Bearing") (0.6, "Block Shear") = (0.9, "Bearing") := by
      unfold pyMaxPair
      rw [if_neg]
      rintro (hlt | ⟨heq, _⟩)
      · norm_num at hlt
      · norm_num at heq
    show GoverningResult.mk _ _ _ = _
    rw [h1, h2]
    norm_num

/-! ## Column engine helper lemmas -/

lemma kFactorLookup_pos (key : List Char) (v : ℚ) (h : kFactorLookup key = some v) :
    0 < v := by
  unfold kFactorLookup at h
  split_ifs at h <;> first
  | (injection h with h2; subst h2; norm_num)
  | injection h

lemma get_k_factor_pos (b1 b2 : String) : 0 < (get_k_factor b1 b2).k := by
  have hk : ∀ key : List Char, 0 < (match kFactorLookup key with
      | some v => (⟨v, false⟩ : KResult)
      | none => (⟨1, true⟩ : KResult)).k := by
    intro key
    rcases h : kFactorLookup key with _ | v
    · simp
    · simpa using kFactorLookup_pos key v h
  simp only [get_k_factor]
  exact hk _

lemma colK_pos (b1 b2 : String) : 0 < colK b1 b2 := by
  unfold colK
  exact_mod_cast get_k_factor_pos b1 b2

lemma colKLr_pos (inp : ColumnInput) (b1 b2 : String)
    (hL : 0 < inp.L) (hrx : 0 < inp.rx) : 0 < colKLr inp b1 b2 :=
  lt_of_lt_of_le (div_pos (mul_pos (colK_pos b1 b2) hL) hrx) (le_max_left _ _)

lemma colFe_pos (inp : ColumnInput) (b1 b2 : String)
    (hE : 0 < inp.E) (hKLr : 0 < colKLr inp b1 b2) : 0 < colFe inp b1 b2 :=
  div_pos (mul_pos (pow_pos Real.pi_pos 2) hE) (pow_pos hKLr 2)

lemma pi_sq_gt : (9.8696 : ℝ) < Real.pi ^ 2 := by
  nlinarith [Real.pi_gt_d6]

lemma pi_sq_lt : Real.pi ^ 2 < 9.8696066 := by
  nlinarith [Real.pi_lt_d6, Real.pi_pos]

/-! ## C9: critical stress strictly between 0 and Fy -/

/-- C9: for positive geometry and material inputs, the returned critical
stress satisfies `0 < Fcr < Fy` in both regimes (inelastic because
`0.658^(Fy/Fe) < 1`, elastic because the regime condition forces
`0.877 Fe < Fy`), and hence the nominal strength (in kN, as the code scales
it) satisfies `Pn < Fy * Ag * 1e-3`. -/
theorem C9_Fcr_strictly_below_yield (inp : ColumnInput) (b1 b2 : String)
    (hL : 0 < inp.L) (hrx : 0 < inp.rx) (hry : 0 < inp.ry)
    (hE : 0 < inp.E) (hFy : 0 < inp.Fy) (hAg : 0 < inp.Ag) :
    0 < (calculate_compressive_strength inp b1 b2).Fcr ∧
    (calculate_compressive_strength inp b1 b2).Fcr < inp.Fy ∧
    (calculate_compressive_strength inp b1 b2).Pn < inp.Fy * inp.Ag * 1e-3 := by
  have hKLr := colKLr_pos inp b1 b2 hL hrx
  have hFe := colFe_pos inp b1 b2 hE hKLr
  have main : 0 < colFcr inp b1 b2 ∧ colFcr inp b1 b2 < inp.Fy := by
    unfold colFcr
    split
    · next hin =>
      refine ⟨mul_pos (Real.rpow_pos_of_pos (by norm_num) _) hFy, ?_⟩
      have h1 : (0.658 : ℝ) ^ (inp.Fy / colFe inp b1 b2) < 1 :=
        Real.rpow_lt_one (by norm_num) (by norm_num) (div_pos hFy hFe)
      calc (0.658 : ℝ) ^ (inp.Fy / colFe inp b1 b2) * inp.Fy
          < 1 * inp.Fy := mul_lt_mul_of_pos_right h1 hFy
        _ = inp.Fy := one_mul _
    · next hel =>
      push_neg at hel
      refine ⟨mul_pos (by norm_num) hFe, ?_⟩
      have hsq : colLimit inp ^ 2 = 22.1841 * (inp.E / inp.Fy) := by
        unfold colLimit
        rw [mul_pow, Real.sq_sqrt (le_of_lt (div_pos hE hFy))]
        norm_num
      have hLnn : 0 ≤ colLimit inp := by unfold colLimit; positivity
      have hK2 : 22.1841 * (inp.E / inp.Fy) < colKLr inp b1 b2 ^ 2 := by
        rw [← hsq]
        exact pow_lt_pow_left hel hLnn two_ne_zero
      have hFe_lt : colFe inp b1 b2 < Real.pi ^ 2 * inp.Fy / 22.1841 := by
        unfold colFe
        rw [div_lt_div_iff (pow_pos hKLr 2) (by norm_num)]
        have hstep := mul_lt_mul_of_pos_left hK2
          (show (0 : ℝ) < Real.pi ^ 2 * inp.Fy by positivity)
        calc Real.pi ^ 2 * inp.E * 22.1841
            = Real.pi ^ 2 * inp.Fy * (22.1841 * (inp.E / inp.Fy)) := by
              field_simp
              ring
          _ < Real.pi ^ 2 * inp.Fy * colKLr inp b1 b2 ^ 2 := hstep
      calc (0.877 : ℝ) * colFe inp b1 b2
          < 0.877 * (Real.pi ^ 2 * inp.Fy / 22.1841) :=
            mul_lt_mul_of_pos_left hFe_lt (by norm_num)
        _ ≤ inp.Fy := by
            rw [mul_comm, div_mul_eq_mul_div, div_le_iff₀ (by norm_num : (0:ℝ) < 22.1841)]
            nlinarith [mul_le_mul_of_nonneg_right pi_sq_lt.le hFy.le, hFy.le]
  refine ⟨main.1, main.2, ?_⟩
  show colFcr inp b1 b2 * inp.Ag * 1e-3 < inp.Fy * inp.Ag * 1e-3
  have := mul_lt_mul_of_pos_right main.2 hAg
  nlinarith [this]

/-- C9 witness: both conclusions at a concrete inelastic-regime input. -/
theorem C9_Fcr_strictly_below_yield_witness :
    0 < (calculate_compressive_strength ⟨9, 1, 1, 400, 100, 10⟩ "pinned" "pinned").Fcr ∧
    (calculate_compressive_strength ⟨9, 1, 1, 400, 100, 10⟩ "pinned" "pinned").Fcr < 100 ∧
    (calculate_compressive_strength ⟨9, 1, 1, 400, 100, 10⟩ "pinned" "pinned").Pn
      < 100 * 10 * 1e-3 :=
  C9_Fcr_strictly_below_yield ⟨9, 1, 1, 400, 100, 10⟩ "pinned" "pinned"
    (by norm_num) (by norm_num) (by norm_num) (by norm_num) (by norm_num) (by norm_num)

/-! ## C3: regime boundary classification and continuity -/

lemma rpow_22_le : (0.658 : ℝ) ^ (2.2 : ℝ) ≤ 0.3985 := by
  have hpow : ((0.658 : ℝ) ^ (2.2 : ℝ)) ^ (5 : ℕ) = (0.658 : ℝ) ^ (11 : ℕ) := by
    rw [← Real.rpow_natCast ((0.658 : ℝ) ^ (2.2 : ℝ)) 5,
        ← Real.rpow_mul (by norm_num : (0 : ℝ) ≤ 0.658)]
    rw [show (2.2 : ℝ) * ((5 : ℕ) : ℝ) = ((11 : ℕ) : ℝ) by norm_num, Real.rpow_natCast]
  by_contra hcon
  push_neg at hcon
  have h5 : (0.3985 : ℝ) ^ (5 : ℕ) < ((0.658 : ℝ) ^ (2.2 : ℝ)) ^ (5 : ℕ) :=
    pow_lt_pow_left₀ hcon (by norm_num) (by norm_num)
  rw [hpow] at h5
  norm_num at h5

lemma rpow_225_ge : (0.385 : ℝ) ≤ (0.658 : ℝ) ^ (2.25 : ℝ) := by
  have hpow : ((0.658 : ℝ) ^ (2.25 : ℝ)) ^ (4 : ℕ) = (0.658 : ℝ) ^ (9 : ℕ) := by
    rw [← Real.rpow_natCast ((0.658 : ℝ) ^ (2.25 : ℝ)) 4,
        ← Real.rpow_mul (by norm_num : (0 : ℝ) ≤ 0.658)]
    rw [show (2.25 : ℝ) * ((4 : ℕ) : ℝ) = ((9 : ℕ) : ℝ) by norm_num, Real.rpow_natCast]
  by_contra hcon
  push_neg at hcon
  have h4 : ((0.658 : ℝ) ^ (2.25 : ℝ)) ^ (4 : ℕ) < (0.385 : ℝ) ^ (4 : ℕ) :=
    pow_lt_pow_left₀ hcon (Real.rpow_pos_of_pos (by norm_num) _).le (by norm_num)
  rw [hpow] at h4
  norm_num at h4

/-- C3: when the governing `KL/r` exactly equals `4.71 sqrt(E/Fy)`, the
engine classifies the column as inelastic (the comparison is a non-strict
`≤`), and at that exact point the inelastic critical stress
`0.658^(Fy/Fe) Fy` differs from the elastic expression `0.877 Fe` by less
than `Fy/100`. -/
theorem C3_boundary_inelastic_and_continuous (inp : ColumnInput) (b1 b2 : String)
    (hE : 0 < inp.E) (hFy : 0 < inp.Fy)
    (hb : colKLr inp b1 b2 = colLimit inp) :
    (calculate_compressive_strength inp b1 b2).failureMode = "Inelastic Buckling" ∧
    |(calculate_compressive_strength inp b1 b2).Fcr -
      0.877 * (calculate_compressive_strength inp b1 b2).Fe| < inp.Fy / 100 := by
  have hle : colKLr inp b1 b2 ≤ colLimit inp := le_of_eq hb
  have hpi2 : (0 : ℝ) < Real.pi ^ 2 := pow_pos Real.pi_pos 2
  have hKL2 : colKLr inp b1 b2 ^ 2 = 22.1841 * (inp.E / inp.Fy) := by
    rw [hb]
    unfold colLimit
    rw [mul_pow, Real.sq_sqrt (div_pos hE hFy).le]
    norm_num
  have hFe_eq : colFe inp b1 b2 = Real.pi ^ 2 * inp.Fy / 22.1841 := by
    unfold colFe
    rw [hKL2]
    field_simp
    ring
  have hexp : inp.Fy / colFe inp b1 b2 = 22.1841 / Real.pi ^ 2 := by
    rw [hFe_eq]
    rw [div_eq_div_iff (by positivity) (ne_of_gt hpi2)]
    field_simp
    ring
  have hq1 : (2.2 : ℝ) ≤ 22.1841 / Real.pi ^ 2 := by
    rw [le_div_iff₀ hpi2]
    nlinarith [pi_sq_lt]
  have hq2 : (22.1841 : ℝ) / Real.pi ^ 2 ≤ 2.25 := by
    rw [div_le_iff₀ hpi2]
    nlinarith [pi_sq_gt]
  have hp_hi : (0.658 : ℝ) ^ ((22.1841 : ℝ) / Real.pi ^ 2) ≤ 0.3985 :=
    le_trans (Real.rpow_le_rpow_of_exponent_ge (by norm_num) (by norm_num) hq1) rpow_22_le
  have hp_lo : (0.385 : ℝ) ≤ (0.658 : ℝ) ^ ((22.1841 : ℝ) / Real.pi ^ 2) :=
    le_trans rpow_225_ge (Real.rpow_le_rpow_of_exponent_ge (by norm_num) (by norm_num) hq2)
  have hs_lo : (0.39017 : ℝ) ≤ 0.877 * Real.pi ^ 2 / 22.1841 := by
    rw [le_div_iff₀ (by norm_num : (0 : ℝ) < 22.1841)]
    nlinarith [pi_sq_gt]
  have hs_hi : (0.877 : ℝ) * Real.pi ^ 2 / 22.1841 ≤ 0.39018 := by
    rw [div_le_iff₀ (by norm_num : (0 : ℝ) < 22.1841)]
    nlinarith [pi_sq_lt]
  have hmode : (calculate_compressive_strength inp b1 b2).failureMode =
      "Inelastic Buckling" := by
    show (if colKLr inp b1 b2 ≤ colLimit inp then "Inelastic Buckling"
      else "Elastic Buckling") = "Inelastic Buckling"
    rw [if_pos hle]
  have hFcr : (calculate_compressive_strength inp b1 b2).Fcr =
      (0.658 : ℝ) ^ ((22.1841 : ℝ) / Real.pi ^ 2) * inp.Fy := by
    show colFcr inp b1 b2 = _
    unfold colFcr
    rw [if_pos hle, hexp]
  refine ⟨hmode, ?_⟩
  have hFe_proj : (calculate_compressive_strength inp b1 b2).Fe = colFe inp b1 b2 := rfl
  rw [hFcr, hFe_proj, hFe_eq,
    show (0.877 : ℝ) * (Real.pi ^ 2 * inp.Fy / 22.1841) =
      0.877 * Real.pi ^ 2 / 22.1841 * inp.Fy by ring,
    abs_sub_lt_iff]
  constructor
  · nlinarith [mul_le_mul_of_nonneg_right hp_hi hFy.le,
      mul_le_mul_of_nonneg_right hs_lo hFy.le]
  · nlinarith [mul_le_mul_of_nonneg_right hp_lo hFy.le,
      mul_le_mul_of_nonneg_right hs_hi hFy.le]

/-- C3 witness: at `E = 400`, `Fy = 100`, `K = 1`, `L/r = 9.42` the governing
slenderness exactly equals `4.71 sqrt(E/Fy) = 9.42`; the engine classifies
inelastic and the two critical-stress formulas agree within `Fy/100`. -/
theorem C3_boundary_witness :
    colKLr ⟨9.42, 1, 1, 400, 100, 10⟩ "pinned" "pinned" =
      colLimit ⟨9.42, 1, 1, 400, 100, 10⟩ ∧
    (calculate_compressive_strength ⟨9.42, 1, 1, 400, 100, 10⟩
      "pinned" "pinned").failureMode = "Inelastic Buckling" ∧
    |(calculate_compressive_strength ⟨9.42, 1, 1, 400, 100, 10⟩ "pinned" "pinned").Fcr -
      0.877 * (calculate_compressive_strength ⟨9.42, 1, 1, 400, 100, 10⟩
        "pinned" "pinned").Fe| < (100 : ℝ) / 100 := by
  have hKq : get_k_factor "pinned" "pinned" = ⟨1.00, false⟩ := rfl
  have hK : colK "pinned" "pinned" = 1 := by
    unfold colK
    rw [hKq]
    norm_num
  have hs : Real.sqrt (4 : ℝ) = 2 := by
    rw [show (4 : ℝ) = 2 ^ 2 by norm_num, Real.sqrt_sq (by norm_num : (0 : ℝ) ≤ 2)]
  have hlim : colLimit ⟨9.42, 1, 1, 400, 100, 10⟩ = 9.42 := by
    unfold colLimit
    norm_num [hs]
  have hkl : colKLr ⟨9.42, 1, 1, 400, 100, 10⟩ "pinned" "pinned" = 9.42 := by
    unfold colKLr
    rw [hK]
    norm_num
  have hb : colKLr ⟨9.42, 1, 1, 400, 100, 10⟩ "pinned" "pinned" =
      colLimit ⟨9.42, 1, 1, 400, 100, 10⟩ := hkl.trans hlim.symm
  have T := C3_boundary_inelastic_and_continuous ⟨9.42, 1, 1, 400, 100, 10⟩
    "pinned" "pinned" (by norm_num) (by norm_num) hb
  exact ⟨hb, T.1, T.2⟩

/-! ## C7: LTB zone boundary inclusivity and the Zone-2 formula -/

/-- C7: strong-axis zone classification is inclusive on the lower boundary:
`Lb = Lp` lands in Zone 1 with `Mn = Mp`; `Lb = Lr` (when `Lp < Lr`) lands
in Zone 2, not Zone 3; and throughout Zone 2 the returned `Mn` is
`Cb (Mp - (Mp - 0.7 Fy Sx)((Lb-Lp)/(Lr-Lp)))` capped at `Mp`. -/
theorem C7_zone_boundaries (Fy E Lb cb Sx Zx ry rts J ho : ℝ) :
    (Lb = flexLp Fy E ry →
      (strongAxisFlex Fy E Lb cb Sx Zx ry rts J ho).ltbZone = "Compact Zone (Zone 1)" ∧
      (strongAxisFlex Fy E Lb cb Sx Zx ry rts J ho).Mn = plasticMoment Fy Zx) ∧
    (flexLp Fy E ry < flexLr Fy E Sx rts J ho →
      (strongAxisFlex Fy E (flexLr Fy E Sx rts J ho) cb Sx Zx ry rts J ho).ltbZone =
        "Inelastic LTB (Zone 2)") ∧
    (flexLp Fy E ry < Lb → Lb ≤ flexLr Fy E Sx rts J ho →
      (strongAxisFlex Fy E Lb cb Sx Zx ry rts J ho).Mn =
        min (cb * (plasticMoment Fy Zx -
          (plasticMoment Fy Zx - 0.7 * Fy * Sx * 1e-6) *
            ((Lb - flexLp Fy E ry) / (flexLr Fy E Sx rts J ho - flexLp Fy E ry))))
          (plasticMoment Fy Zx)) := by
  refine ⟨?_, ?_, ?_⟩
  · intro h
    unfold strongAxisFlex
    rw [if_pos (le_of_eq h)]
    exact ⟨rfl, rfl⟩
  · intro h
    unfold strongAxisFlex
    rw [if_neg (not_le.mpr h), if_pos ⟨h, le_refl _⟩]
  · intro h1 h2
    unfold strongAxisFlex
    rw [if_neg (not_le.mpr h1), if_pos ⟨h1, h2⟩]

/-- Sample section for witnesses: `Sx = 80000`, `Zx = 1e6`, `ry = 100`,
`rts = 175`, `J = 31719`, `ho = 1`, with `Fy = 100`, `E = 400`.  The numbers
are chosen so that every square root in `Lp`/`Lr` is rational:
`Lp = 0.352 m`, `Lr = 1.95 m`. -/
lemma flexLp_sample : flexLp 100 400 100 = 0.352 := by
  have hs : Real.sqrt (4 : ℝ) = 2 := by
    rw [show (4 : ℝ) = 2 ^ 2 by norm_num, Real.sqrt_sq (by norm_num : (0 : ℝ) ≤ 2)]
  unfold flexLp
  norm_num [hs]

lemma flexLr_sample : flexLr 100 400 80000 175 31719 1 = 1.95 := by
  have h1 : Real.sqrt ((2331054961 / 6400000000 : ℝ)) = 48281 / 80000 := by
    rw [show (2331054961 / 6400000000 : ℝ) = (48281 / 80000) ^ 2 by norm_num,
      Real.sqrt_sq (by norm_num : (0 : ℝ) ≤ 48281 / 80000)]
  unfold flexLr flexGeom
  norm_num [h1, Real.sqrt_one]

/-- C7 witness: on the sample section, `Lb = Lp = 0.352` gives Zone 1 with
`Mn = Mp`; `Lb = Lr = 1.95` gives Zone 2; and at `Lb = 1` (inside Zone 2)
the Zone-2 formula is returned. -/
theorem C7_zone_boundaries_witness :
    (strongAxisFlex 100 400 0.352 1 80000 1000000 100 175 31719 1).ltbZone =
      "Compact Zone (Zone 1)" ∧
    (strongAxisFlex 100 400 0.352 1 80000 1000000 100 175 31719 1).Mn =
      plasticMoment 100 1000000 ∧
    (strongAxisFlex 100 400 1.95 1 80000 1000000 100 175 31719 1).ltbZone =
      "Inelastic LTB (Zone 2)" ∧
    (strongAxisFlex 100 400 1 1 80000 1000000 100 175 31719 1).Mn =
      min (1 * (plasticMoment 100 1000000 -
        (plasticMoment 100 1000000 - 0.7 * 100 * 80000 * 1e-6) *
          ((1 - flexLp 100 400 100) / (flexLr 100 400 80000 175 31719 1 - flexLp 100 400 100))))
        (plasticMoment 100 1000000) := by
  have T := C7_zone_boundaries 100 400 0.352 1 80000 1000000 100 175 31719 1
  have T2 := C7_zone_boundaries 100 400 1 1 80000 1000000 100 175 31719 1
  have hz1 := T.1 (by rw [flexLp_sample])
  have hz2 := T.2.1 (by rw [flexLp_sample, flexLr_sample]; norm_num)
  rw [flexLr_sample] at hz2
  have hz3 := T2.2.2 (by rw [flexLp_sample]; norm_num)
    (by rw [flexLr_sample]; norm_num)
  exact ⟨hz1.1, hz1.2, hz2, hz3⟩

/-! ## C1: weak-axis flexure path -/

/-- C1 counterexample: the analysis-layer `calculate_bending_capacity`
accepts `axis` but never consults it.  Called with `axis = "weak"` on the
sample section with `Lb = 0.2`, it performs the strong-axis LTB
classification (Zone 1) and returns `Mn = Fy Zx * 1e-6 = 100`, which is not
the weak-axis value `min(Fy Zy, 1.6 Fy Sy) * 1e-6 = 1`. -/
theorem C1_weak_axis_counterexample :
    calculate_bending_capacity ⟨"W", 80000, 1000000, 10000, 10000, 100, 175, 31719, 1⟩
      100 400 0.2 "weak" 1 =
      Except.ok (strongAxisFlex 100 400 0.2 1 80000 1000000 100 175 31719 1) ∧
    (strongAxisFlex 100 400 0.2 1 80000 1000000 100 175 31719 1).ltbZone =
      "Compact Zone (Zone 1)" ∧
    (strongAxisFlex 100 400 0.2 1 80000 1000000 100 175 31719 1).Mn = 100 ∧
    (100 : ℝ) ≠ min ((100 : ℝ) * 10000 * 1e-6) (1.6 * 100 * 10000 * 1e-6) := by
  have hzone : (strongAxisFlex 100 400 0.2 1 80000 1000000 100 175 31719 1).ltbZone =
      "Compact Zone (Zone 1)" ∧
      (strongAxisFlex 100 400 0.2 1 80000 1000000 100 175 31719 1).Mn =
        plasticMoment 100 1000000 := by
    unfold strongAxisFlex
    rw [if_pos (by rw [flexLp_sample]; norm_num : (0.2 : ℝ) ≤ flexLp 100 400 100)]
    exact ⟨rfl, rfl⟩
  refine ⟨rfl, hzone.1, ?_, ?_⟩
  · rw [hzone.2]; unfold plasticMoment; norm_num
  · have : min ((100 : ℝ) * 10000 * 1e-6) (1.6 * 100 * 10000 * 1e-6) = 1 := by
      rw [min_eq_left (by norm_num)]
      norm_num
    rw [this]
    norm_num

/-- C1 amended: the CSA-layer `check_flexural_resistance` does implement the
claim: for every supported section, material and unbraced length, an `axis`
whose lowercased form is `"weak"` or `"y"` yields
`Mn = min(Fy Zy, 1.6 Fy Sy)` with no LTB classification (`"Weak Axis"`, no
`Lp`/`Lr`) and `Mu = 0.9 Mn`; the legacy `calculate_bending_capacity`
ignores `axis` entirely, returning the identical strong-axis result for
every axis argument. -/
theorem C1_weak_axis_amended (sec : BeamSection) (Fy E Lb cb : ℝ) (axis : String)
    (h1 : sec.typ ∈ supportedShapeTypes)
    (h2 : pyLower axis.data = "weak".data ∨ pyLower axis.data = "y".data) :
    check_flexural_resistance sec Fy E Lb axis cb =
      Except.ok ⟨min (Fy * sec.Zy * 1e-6) (1.6 * Fy * sec.Sy * 1e-6),
        0.9 * min (Fy * sec.Zy * 1e-6) (1.6 * Fy * sec.Sy * 1e-6),
        none, none, "Weak Axis"⟩ ∧
    (∀ a1 a2 : String, calculate_bending_capacity sec Fy E Lb a1 cb =
      calculate_bending_capacity sec Fy E Lb a2 cb) := by
  constructor
  · unfold check_flexural_resistance
    rw [if_pos h1, if_pos h2]
  · intro a1 a2
    rfl

/-- C1 witness: the amended claim at the sample section with `axis = "weak"`. -/
theorem C1_weak_axis_amended_witness :
    check_flexural_resistance ⟨"W", 80000, 1000000, 10000, 10000, 100, 175, 31719, 1⟩
      100 400 0.2 "weak" 1 =
      Except.ok ⟨min ((100 : ℝ) * 10000 * 1e-6) (1.6 * 100 * 10000 * 1e-6),
        0.9 * min ((100 : ℝ) * 10000 * 1e-6) (1.6 * 100 * 10000 * 1e-6),
        none, none, "Weak Axis"⟩ ∧
    (∀ a1 a2 : String,
      calculate_bending_capacity ⟨"W", 80000, 1000000, 10000, 10000, 100, 175, 31719, 1⟩
        100 400 0.2 a1 1 =
      calculate_bending_capacity ⟨"W", 80000, 1000000, 10000, 10000, 100, 175, 31719, 1⟩
        100 400 0.2 a2 1) :=
  C1_weak_axis_amended ⟨"W", 80000, 1000000, 10000, 10000, 100, 175, 31719, 1⟩
    100 400 0.2 1 "weak" (by decide) (Or.inl (by decide))

/-! ## C8: monotonicity in the yield strength -/

lemma log_0658_ge : (-0.44 : ℝ) ≤ Real.log 0.658 := by
  rw [Real.le_log_iff_exp_le (by norm_num : (0 : ℝ) < 0.658)]
  have h1 : (1.0275 : ℝ) ≤ Real.exp 0.0275 := by
    have := Real.add_one_le_exp (0.0275 : ℝ)
    linarith
  have h16 : (1.0275 : ℝ) ^ (16 : ℕ) ≤ Real.exp 0.44 := by
    calc (1.0275 : ℝ) ^ (16 : ℕ) ≤ (Real.exp 0.0275) ^ (16 : ℕ) :=
          pow_le_pow_left (by norm_num) h1 16
      _ = Real.exp (16 * 0.0275) := (Real.exp_nat_mul _ 16).symm
      _ = Real.exp 0.44 := by norm_num
  have hge : (1 / 0.658 : ℝ) ≤ Real.exp 0.44 := le_trans (by norm_num) h16
  rw [show (-0.44 : ℝ) = -(0.44 : ℝ) by norm_num, Real.exp_neg]
  calc (Real.exp 0.44)⁻¹ ≤ ((1 / 0.658 : ℝ))⁻¹ :=
        inv_le_inv_of_le (by norm_num) hge
    _ = 0.658 := by norm_num

lemma inelastic_mono (Fe y1 y2 : ℝ) (hFe : 0 < Fe) (hy1 : 0 < y1) (h12 : y1 ≤ y2)
    (hbound : 0.44 * y2 ≤ Fe) :
    (0.658 : ℝ) ^ (y1 / Fe) * y1 ≤ (0.658 : ℝ) ^ (y2 / Fe) * y2 := by
  have hb : (0 : ℝ) < 0.658 := by norm_num
  have hsplit : (0.658 : ℝ) ^ (y2 / Fe) =
      (0.658 : ℝ) ^ (y1 / Fe) * (0.658 : ℝ) ^ ((y2 - y1) / Fe) := by
    rw [← Real.rpow_add hb]
    congr 1
    field_simp
  have hΔ : 0 ≤ (y2 - y1) / Fe := div_nonneg (by linarith) hFe.le
  have hR : 1 - 0.44 * ((y2 - y1) / Fe) ≤ (0.658 : ℝ) ^ ((y2 - y1) / Fe) := by
    rw [Real.rpow_def_of_pos hb]
    have hexp := Real.add_one_le_exp (Real.log 0.658 * ((y2 - y1) / Fe))
    have hlog : -0.44 * ((y2 - y1) / Fe) ≤ Real.log 0.658 * ((y2 - y1) / Fe) :=
      mul_le_mul_of_nonneg_right log_0658_ge hΔ
    linarith
  have hA : (0 : ℝ) < (0.658 : ℝ) ^ (y1 / Fe) := Real.rpow_pos_of_pos hb _
  rw [hsplit, mul_assoc]
  apply mul_le_mul_of_nonneg_left ?_ hA.le
  have h2 := mul_le_mul_of_nonneg_left hbound (by linarith : (0 : ℝ) ≤ y2 - y1)
  have h3 : 0.44 * ((y2 - y1) / Fe) * y2 ≤ y2 - y1 := by
    rw [show 0.44 * ((y2 - y1) / Fe) * y2 = (y2 - y1) * (0.44 * y2) / Fe by ring]
    rw [div_le_iff₀ hFe]
    nlinarith [h2]
  calc y1 ≤ (1 - 0.44 * ((y2 - y1) / Fe)) * y2 := by nlinarith [h3]
    _ ≤ (0.658 : ℝ) ^ ((y2 - y1) / Fe) * y2 :=
        mul_le_mul_of_nonneg_right hR (by linarith)

/-- C8: with all else fixed, increasing `Fy` does not decrease the plastic
moment `Mp = Fy Zx * 1e-6`; and for two yield strengths whose column inputs
both remain in the inelastic regime (the slenderness is within the limit at
the larger `Fy`, hence at both), increasing `Fy` does not decrease the
inelastic nominal strength `Pn = 0.658^(Fy/Fe) Fy Ag * 1e-3`. -/
theorem C8_Fy_monotonicity :
    (∀ Zx Fy1 Fy2 : ℝ, 0 ≤ Zx → Fy1 ≤ Fy2 →
      plasticMoment Fy1 Zx ≤ plasticMoment Fy2 Zx) ∧
    (∀ (L rx ry E Ag Fy1 Fy2 : ℝ) (b1 b2 : String),
      0 < L → 0 < rx → 0 < E → 0 ≤ Ag → 0 < Fy1 → Fy1 ≤ Fy2 →
      colKLr ⟨L, rx, ry, E, Fy2, Ag⟩ b1 b2 ≤ colLimit ⟨L, rx, ry, E, Fy2, Ag⟩ →
      (calculate_compressive_strength ⟨L, rx, ry, E, Fy1, Ag⟩ b1 b2).Pn ≤
      (calculate_compressive_strength ⟨L, rx, ry, E, Fy2, Ag⟩ b1 b2).Pn) := by
  constructor
  · intro Zx Fy1 Fy2 hZx h12
    unfold plasticMoment
    nlinarith [mul_le_mul_of_nonneg_right h12 hZx]
  · intro L rx ry E Ag Fy1 Fy2 b1 b2 hL hrx hE hAg h1 h12 hreg
    have hFy2 : 0 < Fy2 := lt_of_lt_of_le h1 h12
    have hKpos : 0 < colKLr ⟨L, rx, ry, E, Fy2, Ag⟩ b1 b2 :=
      colKLr_pos _ b1 b2 hL hrx
    have hFepos : 0 < colFe ⟨L, rx, ry, E, Fy2, Ag⟩ b1 b2 :=
      colFe_pos _ b1 b2 hE hKpos
    have hsq : colLimit ⟨L, rx, ry, E, Fy2, Ag⟩ ^ 2 = 22.1841 * (E / Fy2) := by
      unfold colLimit
      rw [mul_pow, Real.sq_sqrt (div_pos hE hFy2).le]
      norm_num
    have hK2 : colKLr ⟨L, rx, ry, E, Fy2, Ag⟩ b1 b2 ^ 2 ≤ 22.1841 * (E / Fy2) := by
      rw [← hsq]
      exact pow_le_pow_left hKpos.le hreg 2
    have hbound : 0.44 * Fy2 ≤ colFe ⟨L, rx, ry, E, Fy2, Ag⟩ b1 b2 := by
      show 0.44 * Fy2 ≤ Real.pi ^ 2 * E / colKLr ⟨L, rx, ry, E, Fy2, Ag⟩ b1 b2 ^ 2
      rw [le_div_iff₀ (pow_pos hKpos 2)]
      have h2 : Fy2 * colKLr ⟨L, rx, ry, E, Fy2, Ag⟩ b1 b2 ^ 2 ≤ 22.1841 * E := by
        calc Fy2 * colKLr ⟨L, rx, ry, E, Fy2, Ag⟩ b1 b2 ^ 2
            ≤ Fy2 * (22.1841 * (E / Fy2)) := mul_le_mul_of_nonneg_left hK2 hFy2.le
          _ = 22.1841 * E := by
              field_simp
      nlinarith [h2, mul_le_mul_of_nonneg_right pi_sq_gt.le hE.le]
    have hlim12 : colLimit ⟨L, rx, ry, E, Fy2, Ag⟩ ≤ colLimit ⟨L, rx, ry, E, Fy1, Ag⟩ := by
      unfold colLimit
      have hdiv : E / Fy2 ≤ E / Fy1 := by gcongr
      exact mul_le_mul_of_nonneg_left (Real.sqrt_le_sqrt hdiv) (by norm_num)
    have hreg1 : colKLr ⟨L, rx, ry, E, Fy1, Ag⟩ b1 b2 ≤
        colLimit ⟨L, rx, ry, E, Fy1, Ag⟩ :=
      le_trans hreg hlim12
    show colFcr ⟨L, rx, ry, E, Fy1, Ag⟩ b1 b2 * Ag * 1e-3 ≤
      colFcr ⟨L, rx, ry, E, Fy2, Ag⟩ b1 b2 * Ag * 1e-3
    have hf1 : colFcr ⟨L, rx, ry, E, Fy1, Ag⟩ b1 b2 =
        (0.658 : ℝ) ^ (Fy1 / colFe ⟨L, rx, ry, E, Fy2, Ag⟩ b1 b2) * Fy1 := by
      unfold colFcr
      rw [if_pos hreg1]
      rfl
    have hf2 : colFcr ⟨L, rx, ry, E, Fy2, Ag⟩ b1 b2 =
        (0.658 : ℝ) ^ (Fy2 / colFe ⟨L, rx, ry, E, Fy2, Ag⟩ b1 b2) * Fy2 := by
      unfold colFcr
      rw [if_pos hreg]
    rw [hf1, hf2]
    have hcore := inelastic_mono (colFe ⟨L, rx, ry, E, Fy2, Ag⟩ b1 b2) Fy1 Fy2
      hFepos h1 h12 hbound
    nlinarith [mul_le_mul_of_nonneg_right hcore hAg]

/-- C8 witness: doubling `Fy` from 50 to 100 (column staying inelastic,
`KL/r = 9 ≤ 4.71 sqrt(400/100) = 9.42`) does not decrease `Mp` or `Pn`. -/
theorem C8_Fy_monotonicity_witness :
    plasticMoment 50 1000000 ≤ plasticMoment 100 1000000 ∧
    (calculate_compressive_strength ⟨9, 1, 1, 400, 50, 10⟩ "pinned" "pinned").Pn ≤
    (calculate_compressive_strength ⟨9, 1, 1, 400, 100, 10⟩ "pinned" "pinned").Pn := by
  constructor
  · exact C8_Fy_monotonicity.1 1000000 50 100 (by norm_num) (by norm_num)
  · have hKq : get_k_factor "pinned" "pinned" = ⟨1.00, false⟩ := rfl
    have hK : colK "pinned" "pinned" = 1 := by
      unfold colK
      rw [hKq]
      norm_num
    have hs : Real.sqrt (4 : ℝ) = 2 := by
      rw [show (4 : ℝ) = 2 ^ 2 by norm_num, Real.sqrt_sq (by norm_num : (0 : ℝ) ≤ 2)]
    have hreg : colKLr ⟨9, 1, 1, 400, 100, 10⟩ "pinned" "pinned" ≤
        colLimit ⟨9, 1, 1, 400, 100, 10⟩ := by
      have hkl : colKLr ⟨9, 1, 1, 400, 100, 10⟩ "pinned" "pinned" = 9 := by
        unfold colKLr
        rw [hK]
        norm_num
      have hlim : colLimit ⟨9, 1, 1, 400, 100, 10⟩ = 9.42 := by
        unfold colLimit
        norm_num [hs]
      rw [hkl, hlim]
      norm_num
    exact C8_Fy_monotonicity.2 9 1 1 400 10 50 100 "pinned" "pinned"
      (by norm_num) (by norm_num) (by norm_num) (by norm_num) (by norm_num)
      (by norm_num) hreg
